import Mathlib

/-!
Verification of the GML reader core (`gmlreader.cpp`, class `GMLReader`).

The development shallowly embeds the reader's data model and operations:
pure C++ functions become Lean functions over explicit state values, the
SAX-driven iterator loops become functions over an explicit script of
tokenizer outcomes, and external collaborators (CPL string utilities,
the XML parser, the geometry/SRS library, and the `GMLFeatureClass` /
`GMLPropertyDefn` methods that live outside this translation unit) are
either modelled from the specification or taken as function parameters.
-/

/-! ## String helpers (CPL / libc collaborators)

`EQUAL` is GDAL's case-insensitive string equality (`strcasecmp == 0`);
`strncmp(a, b, n) == 0` compares the first `n` characters.  They are
embedded over the character lists of the strings. -/

/-- Case-insensitive string equality, embedding GDAL's `EQUAL` macro
(`strcasecmp(a,b) == 0`). -/
def strEQUAL (a b : String) : Bool :=
  a.toList.map Char.toLower == b.toList.map Char.toLower

/-- Embedding of `strncmp(a, b, n) == 0` for ASCII strings: the first `n`
characters agree (a string shorter than `n` characters only matches another
string with the same characters, since the terminating NUL would differ). -/
def strncmpEq (a b : String) (n : Nat) : Bool :=
  a.toList.take n == b.toList.take n

/-- The suffix of `s` starting at character index `n`: embedding of the
pointer arithmetic `s + n` on a NUL-terminated string. -/
def strFrom (s : String) (n : Nat) : String :=
  String.mk (s.toList.drop n)

/-- Occurrence of `pat` as a contiguous sublist of `l`. -/
def listHasInfix (pat l : List Char) : Bool :=
  match l with
  | [] => pat == []
  | _ :: rest => pat.isPrefixOf l || listHasInfix pat rest

/-- Embedding of `strstr(text, pat) != NULL`: `pat` occurs as a contiguous
substring of `text`. -/
def strContainsSub (text pat : String) : Bool :=
  listHasInfix pat.toList text.toList

/-- Embedding of `strchr(s, c) != NULL`. -/
def strHasChar (s : String) (c : Char) : Bool :=
  s.toList.contains c

/-- The substring after the last occurrence of a character, embedding
`strrchr(s, c) + 1` (meaningful only when the character occurs). -/
def afterLastChar (s : String) (c : Char) : String :=
  String.mk ((s.toList.reverse.takeWhile (fun d => d != c)).reverse)

/-! ## Data model

`GMLPropertyDefn`, `GMLFeatureClass` and the reader's registry state.
Fields not read by any function translated here are omitted.  Geometry
extents are embedded with `Rat` coordinates: the only operations the
translated code performs on them are `MIN`/`MAX` and reordering, which
are exact. -/

/-- Property types of `GMLPropertyDefn` (`GMLPropertyType`); per the spec
the scalar types widen as `unknown ⊏ integer ⊏ real ⊏ string` with the
parallel list variants. -/
inductive GMLPropertyType where
  | unknown
  | integer
  | real
  | string
  | integerList
  | realList
  | stringList
  deriving DecidableEq, Repr

/-- Geometry type codes (`OGRwkbGeometryType`), abstracted to the flat
codes the reader manipulates; `nothing` embeds `wkbNone` ("seen features
without geometry") and `unknown` embeds `wkbUnknown` ("not yet set"). -/
inductive OGRwkbGeometryType where
  | unknown
  | point
  | lineString
  | polygon
  | multiPoint
  | multiLineString
  | multiPolygon
  | geometryCollection
  | nothing
  deriving DecidableEq, Repr

/-- A property definition: visible field name, source element path, type. -/
structure GMLPropertyDefn where
  fieldName : String
  srcElement : String
  ptype : GMLPropertyType
  deriving DecidableEq, Repr

/-- A feature class record (`GMLFeatureClass`). -/
structure GMLFeatureClass where
  name : String
  elementName : String
  properties : List GMLPropertyDefn
  schemaLocked : Bool
  featureCount : Int
  geometryType : OGRwkbGeometryType
  extents : Option (Rat × Rat × Rat × Rat)
  srsName : Option String
  srsAmbiguous : Bool
  deriving DecidableEq, Repr

/-- Modelled from the spec: the `GMLFeatureClass(pszName)` constructor
(defined outside this translation unit) creates a class whose `name` is
initially the element's local name and whose `element_name` is the XML
local name that triggers instantiation, with no properties, unlocked
schema, feature count at the sentinel `-1` ("unknown"), geometry type
`unknown` ("not yet set"), and no extents or SRS. -/
def mkGMLFeatureClass (pszName : String) : GMLFeatureClass :=
  { name := pszName
    elementName := pszName
    properties := []
    schemaLocked := false
    featureCount := -1
    geometryType := .unknown
    extents := none
    srsName := none
    srsAmbiguous := false }

/-! ## GetClass (by index and by name), AddClass, PushFeature -/

/-- `GMLReader::GetClass(int)`: bounds-checked index into the registered
class array. -/
def getClass (classes : List GMLFeatureClass) (iClass : Int) : Option GMLFeatureClass :=
  if iClass < 0 ∨ (classes.length : Int) ≤ iClass then
    none
  else
    classes.get? iClass.toNat

/-- `GMLReader::GetClass(const char*)`: first registered class whose `name`
matches case-insensitively (`EQUAL`). -/
def getClassByName (classes : List GMLFeatureClass) (pszName : String) :
    Option GMLFeatureClass :=
  classes.find? (fun c => strEQUAL c.name pszName)

/-- The search loop of `GMLReader::PushFeature`: index of the first class
whose `element_name` matches `pszElement` case-insensitively. -/
def findClassIdx (classes : List GMLFeatureClass) (pszElement : String) : Option Nat :=
  match classes with
  | [] => none
  | c :: rest =>
      if strEQUAL pszElement c.elementName then some 0
      else (findClassIdx rest pszElement).map (· + 1)

/-- The class-resolution part of `GMLReader::PushFeature`: find the class of
the element, creating and appending it (`AddClass`) when absent; returns
the updated registry and the index of the feature's class. -/
def pushFeatureClass (classes : List GMLFeatureClass) (pszElement : String) :
    List GMLFeatureClass × Nat :=
  match findClassIdx classes pszElement with
  | some i => (classes, i)
  | none => (classes ++ [mkGMLFeatureClass pszElement], classes.length)

/-! ## SetGlobalSRSName -/

/-- `GMLReader::SetGlobalSRSName`: store a global SRS name only when none is
stored; an `EPSG:` code is rewritten to URN form when
`m_bConsiderEPSGAsURN` is set. -/
def setGlobalSRSName (considerEPSGAsURN : Bool) (current : Option String)
    (pszGlobalSRSName : Option String) : Option String :=
  match current, pszGlobalSRSName with
  | none, some s =>
      if strncmpEq s "EPSG:" 5 && considerEPSGAsURN then
        some ("urn:ogc:def:crs:EPSG::" ++ strFrom s 5)
      else
        some s
  | _, _ => current

/-! ## IsFeatureElement

`GMLReader::IsFeatureElement(pszElement)` classifies a start-element event
against the last component of the current read-state path.  The dialect
branches (Polish `dane`, OpenLS, MapServer `_layer`/`_feature`) and the
generic `member`/`members` suffix rule decide whether control falls
through to the class-list check. -/

/-- `GMLReader::IsFeatureElement`, as a function of the current frame's
last path component, the new element name, the class-list lock flag and
the registered classes.

 In the source, when `nLen == 6` the second suffix test reads
`pszLast + nLen - 7`, one character before the buffer; that out-of-bounds
comparison is embedded as "no match" (a 6-character string cannot end in
`members`). -/
def isFeatureElement (pszLast pszElement : String) (classListLocked : Bool)
    (classes : List GMLFeatureClass) : Bool :=
  let nLen := pszLast.length
  let nElementLength := pszElement.length
  let fallthrough : Bool :=
    if pszLast == "dane" then
      -- Polish TBD GML
      true
    else if pszLast == "GeocodeResponseList" && pszElement == "GeocodedAddress" then
      -- begin of OpenLS
      true
    else if pszLast == "DetermineRouteResponse" then
      -- RouteInstructionsList is not a feature; its RouteInstruction
      -- children are (next branch)
      pszElement != "RouteInstructionsList"
    else if pszElement == "RouteInstruction" && pszLast == "RouteInstructionsList" then
      -- end of OpenLS
      true
    else if decide (6 < nLen) && (strFrom pszLast (nLen - 6) == "_layer") &&
        decide (8 < nElementLength) && (strFrom pszElement (nElementLength - 8) == "_feature") then
      -- GML answer of MapServer WMS GetFeatureInfo request
      true
    else
      !(decide (nLen < 6) ||
        !(strEQUAL (strFrom pszLast (nLen - 6)) "member" ||
          (decide (7 ≤ nLen) && strEQUAL (strFrom pszLast (nLen - 7)) "members")))
  if !fallthrough then
    false
  else if !classListLocked then
    -- if the class list is not locked, any featureMember element will do
    true
  else
    -- otherwise, find a class with the desired element name
    classes.any (fun c => strEQUAL pszElement c.elementName)

/-! ## SetFeatureProperty

`GMLReader::SetFeatureProperty(pszElement, pszValue)` looks the element
path up among the current class's property `src_element`s, inserting a
new property when the schema is unlocked, then stores the value on the
feature and re-analyses the property type.  The class is embedded
explicitly together with the feature's parallel value array. -/

/-- The lookup loop of `SetFeatureProperty`: index of the first property
whose `src_element` equals the element path (exact `strcmp`). -/
def findPropertyIdxBySrc (props : List GMLPropertyDefn) (pszElement : String) :
    Option Nat :=
  match props with
  | [] => none
  | p :: rest =>
      if p.srcElement == pszElement then some 0
      else (findPropertyIdxBySrc rest pszElement).map (· + 1)

/-- Modelled from the spec: `GMLFeatureClass::GetPropertyIndex(name)`
(defined outside this translation unit) returns the index of the property
with the given field name, `-1` when absent. -/
def getPropertyIndex (props : List GMLPropertyDefn) (name : String) : Int :=
  match props with
  | [] => -1
  | p :: rest =>
      if p.fieldName == name then 0
      else
        let r := getPropertyIndex rest name
        if r < 0 then r else r + 1

/-- Filtering with a stronger Boolean predicate keeps at most as many
elements. -/
theorem listFilterLengthMono {α : Type} (p q : α → Bool)
    (h : ∀ a, p a = true → q a = true) (l : List α) :
    (l.filter p).length ≤ (l.filter q).length := by
  induction l with
  | nil => simp
  | cons a t ih =>
      cases hpa : p a with
      | true =>
          have hqa := h a hpa
          simp only [List.filter_cons, hpa, hqa, if_true, List.length_cons]
          omega
      | false =>
          cases hqa : q a with
          | true =>
              simp only [List.filter_cons, hpa, hqa, Bool.false_eq_true,
                if_true, if_false, List.length_cons]
              omega
          | false =>
              simpa only [List.filter_cons, hpa, hqa, Bool.false_eq_true,
                if_false] using ih

/-- Filtering with a strictly stronger Boolean predicate (witnessed by some
member satisfying the weaker predicate only) keeps strictly fewer
elements. -/
theorem listFilterLengthLt {α : Type} (p q : α → Bool)
    (h : ∀ a, p a = true → q a = true) (l : List α) (x : α) (hx : x ∈ l)
    (hqx : q x = true) (hpx : p x = false) :
    (l.filter p).length < (l.filter q).length := by
  induction l with
  | nil => cases hx
  | cons a t ih =>
      rcases List.mem_cons.mp hx with h1 | h1
      · subst h1
        simp only [List.filter_cons, hpx, hqx, Bool.false_eq_true, if_true,
          if_false, List.length_cons]
        exact Nat.lt_succ_of_le (listFilterLengthMono p q h t)
      · have hlt := ih h1
        cases hpa : p a with
        | true =>
            have hqa := h a hpa
            simp only [List.filter_cons, hpa, hqa, if_true, List.length_cons]
            omega
        | false =>
            cases hqa : q a with
            | true =>
                simp only [List.filter_cons, hpa, hqa, Bool.false_eq_true,
                  if_true, if_false, List.length_cons]
                omega
            | false =>
                simpa only [List.filter_cons, hpa, hqa, Bool.false_eq_true,
                  if_false] using hlt

/-- Termination measure for the field-name collision loop: appending `"_"`
strictly shrinks the set of registered names at least as long as the
candidate, because the colliding name itself drops out. -/
theorem lengthFilterLongerLt (names : List String) (cand : String)
    (h : cand ∈ names) :
    (names.filter (fun n => decide (cand.length + 1 ≤ n.length))).length <
      (names.filter (fun n => decide (cand.length ≤ n.length))).length := by
  refine listFilterLengthLt _ _ (fun a ha => ?_) names cand h (by simp) (by simp)
  simp only [decide_eq_true_eq] at ha ⊢
  omega

/-- Fuel-indexed unfolding of the field-name collision loop
`while (GetProperty(osFieldName) != NULL) osFieldName += "_";`.  The fuel
is only a structural-recursion device; `uniqueFieldName` supplies enough
of it for the loop to run to completion (`uniqueFieldName_not_mem`). -/
def uniqueFieldNameAux (names : List String) : String → Nat → String
  | cand, 0 => cand
  | cand, fuel + 1 =>
      if names.contains cand then uniqueFieldNameAux names (cand ++ "_") fuel
      else cand

/-- The collision loop of `SetFeatureProperty`: append `"_"` to the
candidate until it collides with no registered field name. -/
def uniqueFieldName (names : List String) (cand : String) : String :=
  uniqueFieldNameAux names cand
    ((names.filter (fun n => decide (cand.length ≤ n.length))).length + 1)

/-- With fuel exceeding the number of registered names at least as long as
the candidate, the collision loop terminates on a fresh name. -/
theorem uniqueFieldNameAux_not_mem (names : List String) :
    ∀ fuel cand,
      (names.filter (fun n => decide (cand.length ≤ n.length))).length < fuel →
      uniqueFieldNameAux names cand fuel ∉ names := by
  intro fuel
  induction fuel with
  | zero => intro cand h; omega
  | succ f ih =>
      intro cand h
      by_cases hc : names.contains cand
      · have hmem : cand ∈ names := by simpa using hc
        have hlt := lengthFilterLongerLt names cand hmem
        have : (names.filter
            (fun n => decide ((cand ++ "_").length ≤ n.length))).length < f := by
          have hlen : (cand ++ "_").length = cand.length + 1 := by
            have h1 : ("_" : String).length = 1 := rfl
            simp [String.length_append, h1]
          simp only [hlen]
          omega
        simpa [uniqueFieldNameAux, hmem] using ih (cand ++ "_") this
      · have hnm : cand ∉ names := by
          intro hmem
          exact hc (by simpa using hmem)
        simp [uniqueFieldNameAux, hnm]

/-- The name produced by the collision loop is fresh among the registered
field names. -/
theorem uniqueFieldName_not_mem (names : List String) (cand : String) :
    uniqueFieldName names cand ∉ names := by
  exact uniqueFieldNameAux_not_mem names _ cand (Nat.lt_succ_self _)

/-- Modelled from the spec: `Feature.SetProperty(i, value)` stores the value
at index `i` of the parallel property-value array, extending it as needed. -/
def setPropertyValue (vals : List (Option String)) (i : Nat) (v : String) :
    List (Option String) :=
  if i < vals.length then vals.set i (some v)
  else (vals ++ List.replicate (i - vals.length) none) ++ [some v]

/-- Whitespace characters, as recognised by the value tokenizer. -/
def isWSChar (c : Char) : Bool :=
  c == ' ' || c == '\t' || c == '\n' || c == '\r'

/-- Split a character list at whitespace (keeping empty chunks). -/
def splitWSList : List Char → List (List Char)
  | [] => [[]]
  | c :: rest =>
      let r := splitWSList rest
      if isWSChar c then [] :: r
      else
        match r with
        | [] => [[c]]
        | t :: ts => (c :: t) :: ts

/-- Split a value on whitespace, dropping empty tokens. -/
def valueTokens (v : String) : List String :=
  ((splitWSList v.toList).filter (fun t => t != [])).map String.mk

/-- Syntax of a signed decimal integer: optional sign, then one or more
digits. -/
def intSyntax (s : String) : Bool :=
  match s.toList with
  | [] => false
  | c :: rest =>
      if c == '+' || c == '-' then rest != [] && rest.all (·.isDigit)
      else (c :: rest).all (·.isDigit)

/-- Syntax of a decimal real: optional sign, digits with at most one point
and at least one digit. -/
def realSyntax (s : String) : Bool :=
  let body := fun (l : List Char) =>
    let ip := l.takeWhile (·.isDigit)
    match l.drop ip.length with
    | [] => ip != []
    | c :: fp => c == '.' && fp.all (·.isDigit) && (ip != [] || fp != [])
  match s.toList with
  | [] => false
  | c :: rest => if c == '+' || c == '-' then body rest else body (c :: rest)

/-- Widening rank of the scalar property types. -/
def scalarRank : GMLPropertyType → Nat
  | .unknown => 0
  | .integer => 1
  | .real => 2
  | _ => 3

/-- The scalar base of a property type (list variants stripped). -/
def scalarBase : GMLPropertyType → GMLPropertyType
  | .integerList => .integer
  | .realList => .real
  | .stringList => .string
  | t => t

/-- Whether a property type is a list variant. -/
def isListType : GMLPropertyType → Bool
  | .integerList | .realList | .stringList => true
  | _ => false

/-- The list variant of a scalar property type. -/
def listVariant : GMLPropertyType → GMLPropertyType
  | .integer | .unknown => .integerList
  | .real => .realList
  | _ => .stringList

/-- Join of two scalar types in the widening order
`unknown ⊏ integer ⊏ real ⊏ string`. -/
def scalarJoin (a b : GMLPropertyType) : GMLPropertyType :=
  if scalarRank a ≤ scalarRank b then b else a

/-- Scalar classification of one token: integer, real or string. -/
def classifyToken (t : String) : GMLPropertyType :=
  if intSyntax t then .integer
  else if realSyntax t then .real
  else .string

/-- Modelled from the spec: `GMLPropertyDefn::AnalysePropertyValue`
(defined outside this translation unit) widens the property type from an
observed value.  Empty or whitespace-only values leave the type unchanged;
`string`/`string-list` are terminal; a single token widens the scalar base
along `unknown → integer → real → string`; a value with interior
whitespace moves to the corresponding list variant at the widest element
type; widening never narrows. -/
def analysePropertyValue (t : GMLPropertyType) (v : String) : GMLPropertyType :=
  if t == .string || t == .stringList then t
  else
    match valueTokens v with
    | [] => t
    | toks =>
        let elemT := toks.foldl (fun acc tok => scalarJoin acc (classifyToken tok))
          (scalarBase t)
        if isListType t || decide (1 < toks.length) then listVariant elemT
        else elemT

/-- Re-analysis of the property at index `i` against the value just stored
(`GetProperty(iProperty)->AnalysePropertyValue(...)`). -/
def analysePropertyAt (props : List GMLPropertyDefn) (i : Nat) (v : String) :
    List GMLPropertyDefn :=
  match props.get? i with
  | some p => props.set i { p with ptype := analysePropertyValue p.ptype v }
  | none => props

/-- Modelled from the spec: the `GMLPropertyDefn(osFieldName, pszElement)`
constructor (defined outside this translation unit); per the spec a newly
inserted property has `type = string`. -/
def mkGMLPropertyDefn (fieldName srcElement : String) : GMLPropertyDefn :=
  { fieldName := fieldName, srcElement := srcElement, ptype := .string }

/-- `GMLReader::SetFeatureProperty(pszElement, pszValue)` on the current
feature, embedded over the feature's class and parallel value array.  When
no property has `src_element = pszElement`: a locked schema drops the
value; otherwise a field name is derived (text after the last `|`, falling
back to the full path on collision, then `_`-suffixed until unique) and a
new property is appended (forced to string when the `GML_FIELDTYPES`
configuration option equals `ALWAYS_STRING`, embedded as `alwaysString`).
The value is then stored and, when the schema is unlocked, the property
type re-analysed. -/
def setFeatureProperty (alwaysString : Bool) (cls : GMLFeatureClass)
    (vals : List (Option String)) (pszElement pszValue : String) :
    GMLFeatureClass × List (Option String) :=
  match findPropertyIdxBySrc cls.properties pszElement with
  | some i =>
      let vals := setPropertyValue vals i pszValue
      let cls :=
        if cls.schemaLocked then cls
        else { cls with properties := analysePropertyAt cls.properties i pszValue }
      (cls, vals)
  | none =>
      if cls.schemaLocked then
        -- "Encountered property missing from class schema." (debug only)
        (cls, vals)
      else
        let osFieldName :=
          if !strHasChar pszElement '|' then pszElement
          else
            let after := afterLastChar pszElement '|'
            if getPropertyIndex cls.properties after != -1 then pszElement else after
        let osFieldName := uniqueFieldName (cls.properties.map (·.fieldName)) osFieldName
        let poPDefn0 := mkGMLPropertyDefn osFieldName pszElement
        let poPDefn :=
          if alwaysString then { poPDefn0 with ptype := .string } else poPDefn0
        let iProperty := cls.properties.length
        let props := cls.properties ++ [poPDefn]
        let vals := setPropertyValue vals iProperty pszValue
        let props := analysePropertyAt props iProperty pszValue
        ({ cls with properties := props }, vals)

/-! ## PrescanForSchema

`GMLReader::PrescanForSchema(bGetExtents)` re-reads the document,
folding every delivered feature into its class's statistics, then
normalises SRS names and extents per class.  The embedding abstracts the
parse into the list of features `NextFeature` would deliver: each carries
the feature element's name (which fixes its class via `PushFeature`) and,
when the geometry collaborator `GML_BuildOGRGeometryFromList` produces a
geometry from its geometry-element list, that geometry's type, emptiness,
envelope, and the SRS name `GML_ExtractSrsNameFromGeometry` extracts. -/

/-- The geometry data the collaborators derive from one feature's
geometry-element list. -/
structure PrescanGeom where
  geomType : OGRwkbGeometryType
  isEmpty : Bool
  minX : Rat
  maxX : Rat
  minY : Rat
  maxY : Rat
  srsName : Option String
  deriving DecidableEq, Repr

/-- One feature as delivered by `NextFeature` during the prescan. -/
structure PrescanFeature where
  elementName : String
  geom : Option PrescanGeom
  deriving DecidableEq, Repr

/-- Modelled from the spec: `GMLFeatureClass::MergeSRSName` (defined
outside this translation unit) remembers the first distinct SRS name and
marks the class ambiguous (clearing the name) when a second, different
name arrives. -/
def mergeSRSName (cls : GMLFeatureClass) (srs : Option String) : GMLFeatureClass :=
  if cls.srsAmbiguous then cls
  else
    match cls.srsName, srs with
    | none, s => { cls with srsName := s }
    | some _, none => cls
    | some old, some s =>
        if old == s then cls
        else { cls with srsName := none, srsAmbiguous := true }

/-- Modelled from the spec: `OGRMergeGeometryTypes` (defined outside this
translation unit) unions two geometry type codes: `unknown` is the
identity, `none` is the identity on non-`none` types, equal types pass
through, and differing non-`none` types promote to the common multi-
variant when one exists, else to `unknown`. -/
def mergeGeometryTypes (a b : OGRwkbGeometryType) : OGRwkbGeometryType :=
  if a == .unknown then b
  else if b == .unknown then a
  else if a == .nothing then b
  else if b == .nothing then a
  else if a == b then a
  else
    let flat : OGRwkbGeometryType → OGRwkbGeometryType := fun t =>
      match t with
      | .multiPoint => .point
      | .multiLineString => .lineString
      | .multiPolygon => .polygon
      | t => t
    let multi : OGRwkbGeometryType → OGRwkbGeometryType := fun t =>
      match t with
      | .point => .multiPoint
      | .lineString => .multiLineString
      | .polygon => .multiPolygon
      | t => t
    if flat a == flat b then multi (flat a) else .unknown

/-- The body of the prescan's `NextFeature` loop for one feature: bump the
class's feature count and, when extents are requested and a geometry was
built, merge SRS name, geometry type and extents into the class.  The
Boolean component of the state is `m_bCanUseGlobalSRSName`. -/
def prescanStep (bGetExtents : Bool) (st : List GMLFeatureClass × Bool)
    (f : PrescanFeature) : List GMLFeatureClass × Bool :=
  let classes := (pushFeatureClass st.1 f.elementName).1
  let i := (pushFeatureClass st.1 f.elementName).2
  let canUseGlobal := st.2
  match classes.get? i with
  | none => (classes, canUseGlobal)
  | some poClass =>
      let poClass :=
        if poClass.featureCount == -1 then { poClass with featureCount := 1 }
        else { poClass with featureCount := poClass.featureCount + 1 }
      if bGetExtents then
        match f.geom with
        | none => (classes.set i poClass, canUseGlobal)
        | some g =>
            let canUseGlobal := if g.srsName.isSome then false else canUseGlobal
            let poClass := mergeSRSName poClass g.srsName
            let eGType := poClass.geometryType
            let eGType :=
              if poClass.featureCount == 1 && eGType == .unknown then .nothing
              else eGType
            let poClass :=
              { poClass with geometryType := mergeGeometryTypes eGType g.geomType }
            let poClass :=
              if g.isEmpty then poClass
              else
                match poClass.extents with
                | some (x0, x1, y0, y1) =>
                    let e := (min x0 g.minX, max x1 g.maxX, min y0 g.minY, max y1 g.maxY)
                    { poClass with extents := some e }
                | none =>
                    { poClass with extents := some (g.minX, g.maxX, g.minY, g.maxY) }
            (classes.set i poClass, canUseGlobal)
      else (classes.set i poClass, canUseGlobal)

/-- The per-class post-loop of `PrescanForSchema`: substitute the global
SRS name when usable, and under `m_bInvertAxisOrderIfLatLong` on a
lat/long SRS strip the `AXIS` nodes (re-exported WKT stored on the class)
and, when the global-SRS substitution applied, swap the extents to fix
the axis order.  `isSRSLatLongOrder` embeds `GML_IsSRSLatLongOrder`;
`stripAxisWkt` embeds the `OGRSpatialReference` pipeline
(`SetFromUserInput` + `GetAttrNode("GEOGCS")` + `StripNodes("AXIS")` +
`exportToWkt`): `none` when the block is not entered (user-input parse
failure or missing `GEOGCS`), `some w` with the exported WKT in `w` when
it is (`w = none` when `exportToWkt` fails). -/
def prescanPostClass (invertAxisOrderIfLatLong canUseGlobal : Bool)
    (globalSRSName : Option String)
    (isSRSLatLongOrder : Option String → Bool)
    (stripAxisWkt : Option String → Option (Option String))
    (cls : GMLFeatureClass) : GMLFeatureClass :=
  let pszSRSName := if canUseGlobal then globalSRSName else cls.srsName
  if invertAxisOrderIfLatLong && isSRSLatLongOrder pszSRSName then
    match stripAxisWkt pszSRSName with
    | none => cls
    | some wkt =>
        let cls :=
          match wkt with
          | some w => { cls with srsName := some w }
          | none => cls
        if canUseGlobal then
          match cls.extents with
          | some (x0, x1, y0, y1) => { cls with extents := some (y0, y1, x0, x1) }
          | none => cls
        else cls
  else cls

/-- `GMLReader::PrescanForSchema(bGetExtents)` over the feature list the
parse would deliver: start from a cleared, unlocked registry with
`m_bCanUseGlobalSRSName = TRUE`, fold the features, normalise each class,
and report whether any class was discovered. -/
def prescanForSchema (bGetExtents invertAxisOrderIfLatLong : Bool)
    (globalSRSName : Option String)
    (isSRSLatLongOrder : Option String → Bool)
    (stripAxisWkt : Option String → Option (Option String))
    (features : List PrescanFeature) : List GMLFeatureClass × Bool :=
  let folded := features.foldl (prescanStep bGetExtents) ([], true)
  let classes := folded.1.map
    (prescanPostClass invertAxisOrderIfLatLong folded.2 globalSRSName
      isSRSLatLongOrder stripAxisWkt)
  (classes, decide (0 < classes.length))

/-! ## LoadClasses (schema sidecar)

`GMLReader::LoadClasses(pszFile)` reads the sidecar file, requires the
literal substring `<GMLFeatureClassList>`, parses the XML, checks the
root, and adds one schema-locked class per `GMLFeatureClass` child; on
success it locks the class list.  File reading is abstracted as the
optional file content (`none` when open, allocation, or read fails);
`CPLParseXMLString` and `GMLFeatureClass::InitializeFromXML` (both
defined outside this translation unit) are taken as function
parameters. -/

/-- Node kinds of `CPLXMLNode` (`CPLXMLNodeType`). -/
inductive CPLXMLNodeType where
  | element
  | text
  | attribute
  | comment
  | literal
  deriving DecidableEq, Repr

/-- An XML parse-tree node (`CPLXMLNode`), with its child chain as a
list. -/
inductive CPLXMLNode where
  | mk (eType : CPLXMLNodeType) (pszValue : String) (children : List CPLXMLNode)

/-- Node kind accessor. -/
def CPLXMLNode.eType : CPLXMLNode → CPLXMLNodeType
  | .mk t _ _ => t

/-- Node value accessor. -/
def CPLXMLNode.pszValue : CPLXMLNode → String
  | .mk _ v _ => v

/-- Node children accessor. -/
def CPLXMLNode.children : CPLXMLNode → List CPLXMLNode
  | .mk _ _ c => c

/-- The registry state of the reader that `LoadClasses` touches. -/
structure ReaderClassState where
  classes : List GMLFeatureClass
  classListLocked : Bool
  deriving DecidableEq, Repr

/-- The child-iteration loop of `LoadClasses`: add one schema-locked class
per `GMLFeatureClass` element child; a child failing `InitializeFromXML`
aborts with failure (classes added by earlier iterations remain). -/
def loadClassesLoop (initializeFromXML : CPLXMLNode → Option GMLFeatureClass)
    (st : ReaderClassState) : List CPLXMLNode → ReaderClassState × Bool
  | [] => (st, true)
  | psThis :: rest =>
      if psThis.eType == .element && strEQUAL psThis.pszValue "GMLFeatureClass" then
        match initializeFromXML psThis with
        | none => (st, false)
        | some poClass =>
            let st := { st with
              classes := st.classes ++ [{ poClass with schemaLocked := true }] }
            loadClassesLoop initializeFromXML st rest
      else loadClassesLoop initializeFromXML st rest

/-- `GMLReader::LoadClasses(pszFile)`.  `fileContent` is the file's text
(`none` when the open, the allocation, or the read fails);
`parseXMLString` embeds `CPLParseXMLString`. -/
def loadClasses (st : ReaderClassState) (fileContent : Option String)
    (parseXMLString : String → Option CPLXMLNode)
    (initializeFromXML : CPLXMLNode → Option GMLFeatureClass) :
    ReaderClassState × Bool :=
  match fileContent with
  | none => (st, false)
  | some pszWholeText =>
      if !strContainsSub pszWholeText "<GMLFeatureClassList>" then (st, false)
      else
        match parseXMLString pszWholeText with
        | none => (st, false)
        | some psRoot =>
            if !(psRoot.eType == .element &&
                strEQUAL psRoot.pszValue "GMLFeatureClassList") then
              (st, false)
            else
              match loadClassesLoop initializeFromXML st psRoot.children with
              | (st, true) => ({ st with classListLocked := true }, true)
              | (st, false) => (st, false)

/-! ## NextFeature (both backends)

`GMLReader::NextFeatureExpat` (push backend) and
`GMLReader::NextFeatureXerces` (pull backend), embedded over an explicit
script of tokenizer outcomes.  The feature payload type is a parameter
`α`. -/

/-- The observable outcome of parsing one `BUFSIZ` chunk with
`XML_Parse`: whether it reported `XML_STATUS_ERROR`, whether the handler
set its stopped flag, and the features the handler completed (appended to
`ppoFeatureTab` by `PopState`) during the chunk. -/
structure ExpatChunk (α : Type) where
  parseError : Bool
  handlerStopped : Bool
  completed : List α
  deriving DecidableEq, Repr

/-- The `GMLReader` state read and written by `NextFeatureExpat`:
`m_bReadStarted`, whether `fpGML` is a live handle, `m_bStopParsing`, the
pending queue `ppoFeatureTab[nFeatureTabIndex..nFeatureTabLength]`, and
the unconsumed input chunks (`[]` once `VSIFEofL` holds). -/
structure ExpatReaderState (α : Type) where
  readStarted : Bool
  fpOpen : Bool
  stopParsing : Bool
  featureTab : List α
  chunks : List (ExpatChunk α)
  deriving DecidableEq, Repr

/-- The `do { ... } while (!nDone && !m_bStopParsing && nFeatureTabLength
== 0)` loop of `NextFeatureExpat`: returns the feature tab, the stop
flag, and the unconsumed chunks. -/
def nextFeatureExpatLoop {α : Type} :
    List α → Bool → List (ExpatChunk α) → List α × Bool × List (ExpatChunk α)
  | tab, stop, [] => (tab, stop, [])
  | tab, stop, ch :: rest =>
      let tab := tab ++ ch.completed
      let stop := stop || ch.parseError
      let stop := if !stop then ch.handlerStopped else stop
      let nDone := rest.isEmpty
      if !nDone && !stop && tab.isEmpty then nextFeatureExpatLoop tab stop rest
      else (tab, stop, rest)

/-- `GMLReader::NextFeatureExpat`.  `SetupParser` (first call) is embedded
as setting `m_bReadStarted`; whether the file handle is live is the
`fpOpen` field. -/
def nextFeatureExpat {α : Type} (st : ExpatReaderState α) :
    Option α × ExpatReaderState α :=
  let st := if !st.readStarted then { st with readStarted := true } else st
  if !st.fpOpen || st.stopParsing then (none, st)
  else
    match st.featureTab with
    | f :: tabRest => (some f, { st with featureTab := tabRest })
    | [] =>
        if st.chunks.isEmpty then (none, st)
        else
          -- the consumed prefix of ppoFeatureTab is freed before parsing
          match nextFeatureExpatLoop [] st.stopParsing st.chunks with
          | (tab, stop, rest) =>
              match tab with
              | f :: tabRest =>
                  (some f, { st with featureTab := tabRest, stopParsing := stop,
                                     chunks := rest })
              | [] =>
                  (none, { st with featureTab := [], stopParsing := stop,
                                   chunks := rest })

/-- The observable outcome of one `parseFirst`/`parseNext` call on the
Xerces SAX reader: events fired during the call may complete a feature
(latched into `m_poCompleteFeature` by `PopState` when that slot is
empty), and the call either returns a Boolean or throws. -/
inductive XercesParseOutcome (α : Type) where
  | ok (latched : Option α) (ret : Bool)
  | exn (latched : Option α)
  deriving DecidableEq, Repr

/-- The `GMLReader` state read and written by `NextFeatureXerces`. -/
structure XercesReaderState (α : Type) where
  readStarted : Bool
  inputOpen : Bool
  stopParsing : Bool
  completeFeature : Option α
  script : List (XercesParseOutcome α)
  deriving DecidableEq, Repr

/-- `PopState`'s latch into `m_poCompleteFeature`: only when the slot is
empty. -/
def latchComplete {α : Type} (slot latched : Option α) : Option α :=
  match slot with
  | some f => some f
  | none => latched

/-- The `while (m_poCompleteFeature == NULL && !m_bStopParsing &&
parseNext(...))` loop of `NextFeatureXerces`; an exhausted script is a
`parseNext` returning false.  Returns the latch slot, the remaining
script, and whether a call threw (the exception propagates to the catch
block, which sets `m_bStopParsing`). -/
def nextFeatureXercesLoop {α : Type} :
    Option α → List (XercesParseOutcome α) →
      Option α × List (XercesParseOutcome α) × Bool
  | complete, [] => (complete, [], false)
  | complete, o :: rest =>
      match o with
      | .ok latched ret =>
          let complete := latchComplete complete latched
          if ret && complete.isNone then nextFeatureXercesLoop complete rest
          else (complete, rest, false)
      | .exn latched => (latchComplete complete latched, rest, true)

/-- The post-setup body of `NextFeatureXerces` (all inside the `try`
block): run the parse loop unless the latch is already full or parsing is
stopped, then hand the latched feature over; a throwing call leaves the
latch untouched, sets `m_bStopParsing`, and returns no feature. -/
def nextFeatureXercesRun {α : Type} (st : XercesReaderState α) :
    Option α × XercesReaderState α :=
  if st.completeFeature.isSome || st.stopParsing then
    (st.completeFeature, { st with completeFeature := none })
  else
    match nextFeatureXercesLoop st.completeFeature st.script with
    | (complete, rest, true) =>
        (none, { st with completeFeature := complete, script := rest,
                         stopParsing := true })
    | (complete, rest, false) =>
        (complete, { st with completeFeature := none, script := rest })

/-- `GMLReader::NextFeatureXerces`.  On the first call (`!m_bReadStarted`)
the parser is set up and `parseFirst` is driven (its outcome is the
script's head); afterwards `parseNext` is looped. -/
def nextFeatureXerces {α : Type} (st : XercesReaderState α) :
    Option α × XercesReaderState α :=
  if !st.readStarted then
    let st := { st with readStarted := true }
    if !st.inputOpen then (none, st)
    else
      match st.script with
      | [] => (none, st)
      | o :: rest =>
          match o with
          | .exn latched =>
              (none, { st with completeFeature := latchComplete st.completeFeature latched,
                               stopParsing := true, script := rest })
          | .ok latched ret =>
              let st := { st with completeFeature := latchComplete st.completeFeature latched,
                                  script := rest }
              if !ret then (none, st)
              else nextFeatureXercesRun st
  else nextFeatureXercesRun st

/-! ## Theorems -/

/-- A property lookup by source element fails exactly on classes none of
whose properties carry that source element. -/
theorem findPropertyIdxBySrc_eq_none (props : List GMLPropertyDefn)
    (e : String) (h : ∀ p ∈ props, p.srcElement ≠ e) :
    findPropertyIdxBySrc props e = none := by
  induction props with
  | nil => rfl
  | cons p rest ih =>
      have hp : (p.srcElement == e) = false := by
        simpa using h p (List.mem_cons_self p rest)
      simp [findPropertyIdxBySrc, hp,
        ih (fun q hq => h q (List.mem_cons_of_mem _ hq))]

/-- C6: `SetGlobalSRSName` is one-shot and idempotent — it has an effect
only when no global SRS is stored (any later call leaves the stored value
unchanged), and when it takes effect an `EPSG:`-prefixed name is stored in
URN form exactly when `consider_epsg_as_urn` holds, the name verbatim
otherwise. -/
theorem setGlobalSRSName_one_shot (considerEPSGAsURN : Bool) (v str : String)
    (s s2 : Option String) :
    setGlobalSRSName considerEPSGAsURN (some v) s = some v ∧
    setGlobalSRSName considerEPSGAsURN
        (setGlobalSRSName considerEPSGAsURN none (some str)) s2
      = setGlobalSRSName considerEPSGAsURN none (some str) ∧
    setGlobalSRSName considerEPSGAsURN none (some str)
      = (if strncmpEq str "EPSG:" 5 && considerEPSGAsURN then
          some ("urn:ogc:def:crs:EPSG::" ++ strFrom str 5)
        else some str) := by
  refine ⟨?_, ?_, ?_⟩
  · cases s <;> rfl
  · by_cases hb : (strncmpEq str "EPSG:" 5 && considerEPSGAsURN) = true
    · simp only [setGlobalSRSName, hb, if_true]
    · simp only [setGlobalSRSName, hb, if_false, Bool.false_eq_true]
  · rfl

/-- C9: `GetClass(i)` is total over the index: `NULL` whenever the index is
negative or at least the registered class count, and the `i`-th registered
class (in insertion order) otherwise. -/
theorem getClass_total (classes : List GMLFeatureClass) (i : Int) :
    ((i < 0 ∨ (classes.length : Int) ≤ i) → getClass classes i = none) ∧
    (0 ≤ i → i < (classes.length : Int) →
      ∃ h : i.toNat < classes.length,
        getClass classes i = some (classes.get ⟨i.toNat, h⟩)) := by
  constructor
  · intro h
    simp only [getClass, if_pos h]
  · intro h0 h1
    have hn : i.toNat < classes.length := by omega
    refine ⟨hn, ?_⟩
    have hcond : ¬(i < 0 ∨ (classes.length : Int) ≤ i) := by omega
    simp only [getClass, if_neg hcond]
    exact List.get?_eq_get hn

/-- Witness for C9 at a concrete two-class registry. -/
theorem getClass_total_witness :
    getClass [mkGMLFeatureClass "a", mkGMLFeatureClass "b"] 2 = none ∧
    getClass [mkGMLFeatureClass "a", mkGMLFeatureClass "b"] 1
      = some (mkGMLFeatureClass "b") := by
  constructor
  · exact (getClass_total [mkGMLFeatureClass "a", mkGMLFeatureClass "b"] 2).1
      (by decide)
  · obtain ⟨h, he⟩ :=
      (getClass_total [mkGMLFeatureClass "a", mkGMLFeatureClass "b"] 1).2
        (by decide) (by decide)
    simpa using he

/-- C7: on a schema-locked class with no property whose `src_element`
matches, `SetFeatureProperty` silently drops the value: the class (its
property list included) and the feature's property values are returned
unchanged. -/
theorem setFeatureProperty_locked_drops (alwaysString : Bool)
    (cls : GMLFeatureClass) (vals : List (Option String))
    (pszElement pszValue : String)
    (hLocked : cls.schemaLocked = true)
    (hNoSrc : ∀ p ∈ cls.properties, p.srcElement ≠ pszElement) :
    setFeatureProperty alwaysString cls vals pszElement pszValue = (cls, vals) := by
  simp [setFeatureProperty, findPropertyIdxBySrc_eq_none cls.properties pszElement hNoSrc,
    hLocked]

/-- A concrete schema-locked class used by witnesses. -/
def lockedRoadClass : GMLFeatureClass :=
  { mkGMLFeatureClass "Road" with
      schemaLocked := true
      properties := [mkGMLPropertyDefn "name" "name"] }

/-- Witness for C7 at a concrete locked class. -/
theorem setFeatureProperty_locked_drops_witness :
    setFeatureProperty false lockedRoadClass [some "X"] "speed" "50"
      = (lockedRoadClass, [some "X"]) := by
  exact setFeatureProperty_locked_drops false lockedRoadClass [some "X"] "speed" "50"
    (by decide) (by decide)

/-- C2: outside the Polish `dane`, OpenLS and MapServer `_layer`/`_feature`
dialect branches, a start element is recognised as a feature only if the
last path component ends (case-insensitively) in `member` or `members`;
and when the class list is locked, only if additionally the element name
matches (case-insensitively) the `element_name` of some registered
class. -/
theorem isFeatureElement_member_only (pszLast pszElement : String)
    (classListLocked : Bool) (classes : List GMLFeatureClass)
    (h1 : pszLast ≠ "dane")
    (h2 : ¬(pszLast = "GeocodeResponseList" ∧ pszElement = "GeocodedAddress"))
    (h3 : pszLast ≠ "DetermineRouteResponse")
    (h4 : ¬(pszElement = "RouteInstruction" ∧ pszLast = "RouteInstructionsList"))
    (h5 : ¬(6 < pszLast.length ∧ strFrom pszLast (pszLast.length - 6) = "_layer" ∧
            8 < pszElement.length ∧
            strFrom pszElement (pszElement.length - 8) = "_feature"))
    (hTrue : isFeatureElement pszLast pszElement classListLocked classes = true) :
    (6 ≤ pszLast.length ∧
      (strEQUAL (strFrom pszLast (pszLast.length - 6)) "member" = true ∨
        (7 ≤ pszLast.length ∧
          strEQUAL (strFrom pszLast (pszLast.length - 7)) "members" = true))) ∧
    (classListLocked = true →
      classes.any (fun c => strEQUAL pszElement c.elementName) = true) := by
  have b1 : (pszLast == "dane") = false := by simpa using h1
  have b3 : (pszLast == "DetermineRouteResponse") = false := by simpa using h3
  have b2 : (pszLast == "GeocodeResponseList" && pszElement == "GeocodedAddress")
      = false := by
    by_cases hA : pszLast = "GeocodeResponseList"
    · have hB : pszElement ≠ "GeocodedAddress" := fun hB => h2 ⟨hA, hB⟩
      simp [hA, hB]
    · simp [hA]
  have b4 : (pszElement == "RouteInstruction" && pszLast == "RouteInstructionsList")
      = false := by
    by_cases hA : pszElement = "RouteInstruction"
    · have hB : pszLast ≠ "RouteInstructionsList" := fun hB => h4 ⟨hA, hB⟩
      simp [hA, hB]
    · simp [hA]
  have b5 : (decide (6 < pszLast.length) &&
      (strFrom pszLast (pszLast.length - 6) == "_layer") &&
      decide (8 < pszElement.length) &&
      (strFrom pszElement (pszElement.length - 8) == "_feature")) = false := by
    by_cases c1 : 6 < pszLast.length
    · by_cases c2 : strFrom pszLast (pszLast.length - 6) = "_layer"
      · by_cases c3 : 8 < pszElement.length
        · have c4 : strFrom pszElement (pszElement.length - 8) ≠ "_feature" :=
            fun c4 => h5 ⟨c1, c2, c3, c4⟩
          simp [c1, c2, c3, c4]
        · simp [c1, c2, c3]
      · simp [c1, c2]
    · simp [c1]
  unfold isFeatureElement at hTrue
  simp only [b1, b2, b3, b4, b5, Bool.false_eq_true, if_false] at hTrue
  by_cases hm : pszLast.length < 6
  · simp [hm] at hTrue
  · simp only [hm, decide_eq_false hm, Bool.false_or, Bool.not_not,
      Bool.not_eq_true'] at hTrue
    by_cases hmm : (strEQUAL (strFrom pszLast (pszLast.length - 6)) "member" ||
        (decide (7 ≤ pszLast.length) &&
          strEQUAL (strFrom pszLast (pszLast.length - 7)) "members")) = true
    · constructor
      · refine ⟨by omega, ?_⟩
        rcases Bool.or_eq_true_iff.mp hmm with hx | hx
        · exact Or.inl hx
        · rcases Bool.and_eq_true_iff.mp hx with ⟨hy, hz⟩
          exact Or.inr ⟨by simpa using hy, hz⟩
      · intro hlock
        subst hlock
        simpa [hmm] using hTrue
    · simp [hmm] at hTrue

/-- Witness for C2: `featureMember`/`Road` against a locked single-class
registry whose class has element name `ROAD`. -/
theorem isFeatureElement_member_only_witness :
    isFeatureElement "featureMember" "Road" true [mkGMLFeatureClass "ROAD"] = true ∧
    ((6 ≤ ("featureMember" : String).length ∧
      (strEQUAL (strFrom "featureMember" (("featureMember" : String).length - 6))
          "member" = true ∨
        (7 ≤ ("featureMember" : String).length ∧
          strEQUAL (strFrom "featureMember" (("featureMember" : String).length - 7))
            "members" = true))) ∧
    (true = true →
      ([mkGMLFeatureClass "ROAD"]).any (fun c => strEQUAL "Road" c.elementName)
        = true)) := by
  constructor
  · decide
  · exact isFeatureElement_member_only "featureMember" "Road" true
      [mkGMLFeatureClass "ROAD"] (by decide) (by decide) (by decide) (by decide)
      (by decide) (by decide)

/-- Strings equal under `EQUAL` are interchangeable as `EQUAL`'s first
argument. -/
theorem strEQUAL_congr_left (a b x : String) (h : strEQUAL a b = true) :
    strEQUAL a x = strEQUAL b x := by
  simp only [strEQUAL, beq_iff_eq] at h
  simp only [strEQUAL, h]

/-- Strings equal under `EQUAL` are interchangeable as `EQUAL`'s second
argument. -/
theorem strEQUAL_congr_right (a b x : String) (h : strEQUAL a b = true) :
    strEQUAL x a = strEQUAL x b := by
  simp only [strEQUAL, beq_iff_eq] at h
  simp only [strEQUAL, h]

/-- `EQUAL` is symmetric. -/
theorem strEQUAL_symm (a b : String) (h : strEQUAL a b = true) :
    strEQUAL b a = true := by
  simp only [strEQUAL, beq_iff_eq] at h
  simp only [strEQUAL, beq_iff_eq, h]

/-- The class-search loop only depends on the element name up to case. -/
theorem findClassIdx_congr (classes : List GMLFeatureClass) (e1 e2 : String)
    (h : strEQUAL e1 e2 = true) :
    findClassIdx classes e1 = findClassIdx classes e2 := by
  induction classes with
  | nil => rfl
  | cons c rest ih =>
      simp only [findClassIdx, strEQUAL_congr_left e1 e2 c.elementName h, ih]

/-- The class-search loop over an extended registry. -/
theorem findClassIdx_append_one (classes : List GMLFeatureClass)
    (c : GMLFeatureClass) (e : String) (h : findClassIdx classes e = none) :
    findClassIdx (classes ++ [c]) e
      = (if strEQUAL e c.elementName then some classes.length else none) := by
  induction classes with
  | nil => simp [findClassIdx]
  | cons d rest ih =>
      by_cases hd : strEQUAL e d.elementName = true
      · simp [findClassIdx, hd] at h
      · have h' : findClassIdx rest e = none := by
          have hthis := h
          simp only [findClassIdx, hd, Bool.false_eq_true, if_false] at hthis
          cases hrest : findClassIdx rest e with
          | none => rfl
          | some i => simp [hrest] at hthis
        rw [List.cons_append]
        have step : findClassIdx (d :: (rest ++ [c])) e
            = (findClassIdx (rest ++ [c]) e).map (fun i => i + 1) := by
          simp [findClassIdx, hd]
        rw [step, ih h']
        by_cases hc : strEQUAL e c.elementName = true
        · simp [hc]
        · simp [hc]

/-- C10: `PushFeature` resolves the feature element against registered
classes' `element_name` case-insensitively — a second feature element
differing only in letter case is assigned to the same class index and no
duplicate class is created — and `GetClass` by name is likewise
case-insensitive on class names. -/
theorem pushFeature_case_insensitive (classes : List GMLFeatureClass)
    (e1 e2 n1 n2 : String) (he : strEQUAL e1 e2 = true)
    (hn : strEQUAL n1 n2 = true) :
    pushFeatureClass (pushFeatureClass classes e1).1 e2
      = pushFeatureClass classes e1 ∧
    getClassByName classes n1 = getClassByName classes n2 := by
  constructor
  · cases hfind : findClassIdx classes e1 with
    | some i =>
        have h2 : findClassIdx classes e2 = some i := by
          rw [← findClassIdx_congr classes e1 e2 he]
          exact hfind
        simp [pushFeatureClass, hfind, h2]
    | none =>
        have h2 : findClassIdx classes e2 = none := by
          rw [← findClassIdx_congr classes e1 e2 he]
          exact hfind
        have happ := findClassIdx_append_one classes (mkGMLFeatureClass e1) e2 h2
        have hmatch : strEQUAL e2 (mkGMLFeatureClass e1).elementName = true := by
          simpa [mkGMLFeatureClass] using strEQUAL_symm e1 e2 he
        simp [pushFeatureClass, hfind, happ, hmatch]
  · have hp : (fun c : GMLFeatureClass => strEQUAL c.name n1)
        = (fun c : GMLFeatureClass => strEQUAL c.name n2) := by
      funext c
      exact strEQUAL_congr_right n1 n2 c.name hn
    simp only [getClassByName, hp]

/-- Witness for C10: pushing `Road` then `ROAD` on an empty registry keeps
a single class, and name lookups for `road`/`ROAD` agree. -/
theorem pushFeature_case_insensitive_witness :
    pushFeatureClass (pushFeatureClass [] "Road").1 "ROAD"
      = pushFeatureClass [] "Road" ∧
    getClassByName [mkGMLFeatureClass "Road"] "road"
      = getClassByName [mkGMLFeatureClass "Road"] "ROAD" := by
  constructor
  · exact (pushFeature_case_insensitive [] "Road" "ROAD" "x" "x" (by decide)
      (by decide)).1
  · exact (pushFeature_case_insensitive [mkGMLFeatureClass "Road"] "y" "y"
      "road" "ROAD" (by decide) (by decide)).2

/-- Setting the element one past the end of a concat rewrites just that
slot. -/
theorem listSetConcatLength {α : Type} (l : List α) (x y : α) :
    (l ++ [x]).set l.length y = l ++ [y] := by
  induction l with
  | nil => rfl
  | cons a t ih =>
      simp only [List.cons_append, List.length_cons, List.set_cons_succ, ih]

/-- C3: on an unlocked class with no property for the element path,
`SetFeatureProperty` appends exactly one new property: its field name is
the text after the last `|` (the whole path when there is no `|` or when
that text collides with an existing field name), `_`-suffixed until
unique; its source element is the path; its type is string.  Field names
therefore stay pairwise distinct. -/
theorem setFeatureProperty_inserts (alwaysString : Bool) (cls : GMLFeatureClass)
    (vals : List (Option String)) (pszElement pszValue : String)
    (hUnlocked : cls.schemaLocked = false)
    (hNoSrc : ∀ p ∈ cls.properties, p.srcElement ≠ pszElement)
    (hNodup : (cls.properties.map (·.fieldName)).Nodup) :
    (setFeatureProperty alwaysString cls vals pszElement pszValue).1.properties
      = cls.properties ++
        [⟨uniqueFieldName (cls.properties.map (·.fieldName))
            (if !strHasChar pszElement '|' then pszElement
             else
               if getPropertyIndex cls.properties (afterLastChar pszElement '|') != -1
               then pszElement
               else afterLastChar pszElement '|'),
          pszElement, GMLPropertyType.string⟩] ∧
    ((setFeatureProperty alwaysString cls vals pszElement
        pszValue).1.properties.map (·.fieldName)).Nodup := by
  have hfind := findPropertyIdxBySrc_eq_none cls.properties pszElement hNoSrc
  set base :=
    (if !strHasChar pszElement '|' then pszElement
     else
       if getPropertyIndex cls.properties (afterLastChar pszElement '|') != -1
       then pszElement
       else afterLastChar pszElement '|') with hbase
  set fname := uniqueFieldName (cls.properties.map (·.fieldName)) base with hfname
  have hdefn : (if alwaysString then
      { mkGMLPropertyDefn fname pszElement with ptype := GMLPropertyType.string }
      else mkGMLPropertyDefn fname pszElement) = mkGMLPropertyDefn fname pszElement := by
    cases alwaysString <;> rfl
  have hget : (cls.properties ++ [mkGMLPropertyDefn fname pszElement]).get?
      cls.properties.length = some (mkGMLPropertyDefn fname pszElement) :=
    List.get?_concat_length _ _
  have hana : analysePropertyValue GMLPropertyType.string pszValue
      = GMLPropertyType.string := rfl
  have hprops : (setFeatureProperty alwaysString cls vals pszElement pszValue).1.properties
      = cls.properties ++ [⟨fname, pszElement, GMLPropertyType.string⟩] := by
    simp only [setFeatureProperty, hfind, hUnlocked, Bool.false_eq_true, if_false,
      ← hbase, ← hfname, hdefn, analysePropertyAt, hget, listSetConcatLength]
    simp [mkGMLPropertyDefn, hana]
  refine ⟨hprops, ?_⟩
  rw [hprops]
  have hfresh : fname ∉ cls.properties.map (·.fieldName) :=
    uniqueFieldName_not_mem _ _
  simp only [List.map_append, List.map_cons, List.map_nil]
  rw [List.nodup_append]
  refine ⟨hNodup, List.nodup_singleton _, ?_⟩
  intro a ha hb
  simp only [List.mem_singleton] at hb
  subst hb
  exact hfresh ha

/-- A concrete unlocked class whose short field name collides. -/
def collideCls : GMLFeatureClass :=
  { mkGMLFeatureClass "Road" with
      properties := [mkGMLPropertyDefn "name" "a", mkGMLPropertyDefn "foo|name" "b"] }

/-- Witness for C3: inserting `foo|name` where both `name` and `foo|name`
are taken yields field name `foo|name_`, keeping names distinct. -/
theorem setFeatureProperty_inserts_witness :
    (setFeatureProperty false collideCls [] "foo|name" "Y").1.properties.map
        (·.fieldName) = ["name", "foo|name", "foo|name_"] ∧
    ((setFeatureProperty false collideCls [] "foo|name" "Y").1.properties.map
        (·.fieldName)).Nodup := by
  have h := setFeatureProperty_inserts false collideCls [] "foo|name" "Y"
    (by decide) (by decide) (by decide)
  refine ⟨?_, h.2⟩
  rw [h.1]
  decide

/-- The `LoadClasses` child loop only appends schema-locked classes and
never touches the class-list lock. -/
theorem loadClassesLoop_appends (initializeFromXML : CPLXMLNode → Option GMLFeatureClass)
    (ns : List CPLXMLNode) :
    ∀ st : ReaderClassState,
      ∃ tail, (loadClassesLoop initializeFromXML st ns).1.classes
          = st.classes ++ tail ∧
        (∀ c ∈ tail, c.schemaLocked = true) ∧
        (loadClassesLoop initializeFromXML st ns).1.classListLocked
          = st.classListLocked := by
  induction ns with
  | nil => intro st; exact ⟨[], by simp [loadClassesLoop]⟩
  | cons psThis rest ih =>
      intro st
      by_cases hcond : (psThis.eType == CPLXMLNodeType.element &&
          strEQUAL psThis.pszValue "GMLFeatureClass") = true
      · cases hinit : initializeFromXML psThis with
        | none =>
            refine ⟨[], ?_⟩
            simp [loadClassesLoop, hcond, hinit]
        | some poClass =>
            obtain ⟨tail, h1, h2, h3⟩ := ih
              { st with classes :=
                  st.classes ++ [{ poClass with schemaLocked := true }] }
            refine ⟨{ poClass with schemaLocked := true } :: tail, ?_, ?_, ?_⟩
            · simp only [loadClassesLoop, hcond, hinit, if_true]
              rw [h1]
              simp
            · intro c hc
              rcases List.mem_cons.mp hc with rfl | hc
              · rfl
              · exact h2 c hc
            · simp only [loadClassesLoop, hcond, hinit, if_true]
              exact h3
      · obtain ⟨tail, h1, h2, h3⟩ := ih st
        refine ⟨tail, ?_, h2, ?_⟩
        · simp only [loadClassesLoop, hcond, Bool.false_eq_true, if_false]
          exact h1
        · simp only [loadClassesLoop, hcond, Bool.false_eq_true, if_false]
          exact h3

/-- Characterisation of `LoadClasses` once all sanity checks pass: the
result is the child loop's registry, with the class list locked exactly
on success. -/
theorem loadClasses_run (st : ReaderClassState) (text : String)
    (root : CPLXMLNode) (parseXMLString : String → Option CPLXMLNode)
    (initializeFromXML : CPLXMLNode → Option GMLFeatureClass)
    (hsub : strContainsSub text "<GMLFeatureClassList>" = true)
    (hparse : parseXMLString text = some root)
    (hroot : (root.eType == CPLXMLNodeType.element &&
      strEQUAL root.pszValue "GMLFeatureClassList") = true) :
    loadClasses st (some text) parseXMLString initializeFromXML
      = (if (loadClassesLoop initializeFromXML st root.children).2 then
          ({ (loadClassesLoop initializeFromXML st root.children).1 with
              classListLocked := true }, true)
        else ((loadClassesLoop initializeFromXML st root.children).1, false)) := by
  simp only [loadClasses, hsub, hparse, hroot, Bool.not_true, Bool.false_eq_true,
    if_false]
  cases hloop : loadClassesLoop initializeFromXML st root.children with
  | mk st2 ok => cases ok <;> simp

/-- C4 (amended): `LoadClasses` failures before the child iteration
(unreadable file, missing `<GMLFeatureClassList>` substring, XML parse
failure, wrong root) mutate nothing; whatever classes the run does add
are appended schema-locked; a failing run never locks the class list (a
child failing `InitializeFromXML` returns failure with the earlier
children's classes already added); a successful run locks it. -/
theorem loadClasses_spec (st : ReaderClassState) (fileContent : Option String)
    (parseXMLString : String → Option CPLXMLNode)
    (initializeFromXML : CPLXMLNode → Option GMLFeatureClass) :
    (fileContent = none →
      loadClasses st fileContent parseXMLString initializeFromXML = (st, false)) ∧
    (∀ text, fileContent = some text →
      strContainsSub text "<GMLFeatureClassList>" = false →
      loadClasses st fileContent parseXMLString initializeFromXML = (st, false)) ∧
    (∀ text, fileContent = some text → parseXMLString text = none →
      loadClasses st fileContent parseXMLString initializeFromXML = (st, false)) ∧
    (∀ text root, fileContent = some text → parseXMLString text = some root →
      (root.eType == CPLXMLNodeType.element &&
        strEQUAL root.pszValue "GMLFeatureClassList") = false →
      loadClasses st fileContent parseXMLString initializeFromXML = (st, false)) ∧
    (∃ tail, (loadClasses st fileContent parseXMLString
        initializeFromXML).1.classes = st.classes ++ tail ∧
      ∀ c ∈ tail, c.schemaLocked = true) ∧
    ((loadClasses st fileContent parseXMLString initializeFromXML).2 = false →
      (loadClasses st fileContent parseXMLString
        initializeFromXML).1.classListLocked = st.classListLocked) ∧
    ((loadClasses st fileContent parseXMLString initializeFromXML).2 = true →
      (loadClasses st fileContent parseXMLString
        initializeFromXML).1.classListLocked = true) := by
  have hmain : (loadClasses st fileContent parseXMLString initializeFromXML
        = (st, false)) ∨
      (∃ root : CPLXMLNode, loadClasses st fileContent parseXMLString initializeFromXML
        = (if (loadClassesLoop initializeFromXML st root.children).2 then
            ({ (loadClassesLoop initializeFromXML st root.children).1 with
                classListLocked := true }, true)
          else ((loadClassesLoop initializeFromXML st root.children).1,
            false))) := by
    cases hc : fileContent with
    | none => exact Or.inl rfl
    | some text =>
        by_cases hsub : strContainsSub text "<GMLFeatureClassList>" = true
        · cases hparse : parseXMLString text with
          | none =>
              refine Or.inl ?_
              simp [loadClasses, hsub, hparse]
          | some root =>
              by_cases hroot : (root.eType == CPLXMLNodeType.element &&
                  strEQUAL root.pszValue "GMLFeatureClassList") = true
              · exact Or.inr ⟨root,
                  loadClasses_run st text root parseXMLString initializeFromXML
                    hsub hparse hroot⟩
              · refine Or.inl ?_
                have hroot' : (root.eType == CPLXMLNodeType.element &&
                    strEQUAL root.pszValue "GMLFeatureClassList") = false := by
                  simpa using hroot
                simp [loadClasses, hsub, hparse, hroot']
        · refine Or.inl ?_
          have hsub' : strContainsSub text "<GMLFeatureClassList>" = false := by
            simpa using hsub
          simp [loadClasses, hsub']
  refine ⟨?_, ?_, ?_, ?_, ?_, ?_, ?_⟩
  · intro h; rw [h]; rfl
  · intro text h hsub
    rw [h]
    simp [loadClasses, hsub]
  · intro text h hparse
    rw [h]
    by_cases hsub : strContainsSub text "<GMLFeatureClassList>" = true
    · simp [loadClasses, hsub, hparse]
    · have hsub' : strContainsSub text "<GMLFeatureClassList>" = false := by
        simpa using hsub
      simp [loadClasses, hsub']
  · intro text root h hparse hroot
    rw [h]
    by_cases hsub : strContainsSub text "<GMLFeatureClassList>" = true
    · simp [loadClasses, hsub, hparse, hroot]
    · have hsub' : strContainsSub text "<GMLFeatureClassList>" = false := by
        simpa using hsub
      simp [loadClasses, hsub']
  · rcases hmain with h | ⟨root, h⟩
    · exact ⟨[], by rw [h]; simp⟩
    · obtain ⟨tail, h1, h2, h3⟩ :=
        loadClassesLoop_appends initializeFromXML root.children st
      cases hok : (loadClassesLoop initializeFromXML st root.children).2 with
      | true =>
          refine ⟨tail, ?_, h2⟩
          rw [h]
          simp [hok, h1]
      | false =>
          refine ⟨tail, ?_, h2⟩
          rw [h]
          simp [hok, h1]
  · rcases hmain with h | ⟨root, h⟩
    · rw [h]
      intro _
      rfl
    · obtain ⟨tail, h1, h2, h3⟩ :=
        loadClassesLoop_appends initializeFromXML root.children st
      cases hok : (loadClassesLoop initializeFromXML st root.children).2 with
      | true =>
          rw [h]
          simp [hok]
      | false =>
          rw [h]
          intro _
          simp [hok, h3]
  · rcases hmain with h | ⟨root, h⟩
    · rw [h]
      intro hfalse
      cases hfalse
    · cases hok : (loadClassesLoop initializeFromXML st root.children).2 with
      | true =>
          rw [h]
          simp [hok]
      | false =>
          rw [h]
          intro hfalse
          simp [hok] at hfalse

/-- A `GMLFeatureClass` sidecar child which `InitializeFromXML` accepts. -/
def fcNodeOk : CPLXMLNode :=
  .mk .element "GMLFeatureClass" [.mk .text "ok" []]

/-- A `GMLFeatureClass` sidecar child which `InitializeFromXML` rejects. -/
def fcNodeBad : CPLXMLNode :=
  .mk .element "GMLFeatureClass" []

/-- A sidecar root with one good child followed by one bad child. -/
def fcRootMixed : CPLXMLNode :=
  .mk .element "GMLFeatureClassList" [fcNodeOk, fcNodeBad]

/-- A sidecar root with two good children. -/
def fcRootGood : CPLXMLNode :=
  .mk .element "GMLFeatureClassList" [fcNodeOk, fcNodeOk]

/-- A concrete `InitializeFromXML` that accepts exactly the children that
carry content. -/
def fcInit : CPLXMLNode → Option GMLFeatureClass := fun n =>
  match n.children with
  | [] => none
  | _ => some (mkGMLFeatureClass "A")

/-- Counterexample for C4: when a later `GMLFeatureClass` child fails
`InitializeFromXML`, `LoadClasses` returns failure, yet the class built
from the earlier child has already been added to the registry, so a
failing `LoadClasses` can mutate the reader. -/
theorem loadClasses_failure_adds_classes :
    (loadClasses ⟨[], false⟩ (some "<GMLFeatureClassList>")
        (fun _ => some fcRootMixed) fcInit).2 = false ∧
    (loadClasses ⟨[], false⟩ (some "<GMLFeatureClassList>")
        (fun _ => some fcRootMixed) fcInit).1.classes
      = [{ mkGMLFeatureClass "A" with schemaLocked := true }] := by
  constructor
  · decide
  · decide

/-- Witness for C4 on an all-good sidecar: success, class list locked,
both loaded classes schema-locked. -/
theorem loadClasses_spec_witness :
    (loadClasses ⟨[], false⟩ (some "<GMLFeatureClassList>")
        (fun _ => some fcRootGood) fcInit).2 = true ∧
    (loadClasses ⟨[], false⟩ (some "<GMLFeatureClassList>")
        (fun _ => some fcRootGood) fcInit).1.classListLocked = true ∧
    ∃ tail, (loadClasses ⟨[], false⟩ (some "<GMLFeatureClassList>")
        (fun _ => some fcRootGood) fcInit).1.classes = [] ++ tail ∧
      ∀ c ∈ tail, c.schemaLocked = true := by
  have h := loadClasses_spec ⟨[], false⟩ (some "<GMLFeatureClassList>")
    (fun _ => some fcRootGood) fcInit
  refine ⟨by decide, h.2.2.2.2.2.2 (by decide), ?_⟩
  obtain ⟨tail, h1, h2⟩ := h.2.2.2.2.1
  exact ⟨tail, h1, h2⟩

/-- Membership after `PushFeature`'s class resolution: every class is an
old one or the freshly constructed one. -/
theorem pushFeatureClass_mem (classes : List GMLFeatureClass) (e : String)
    (c : GMLFeatureClass) (hc : c ∈ (pushFeatureClass classes e).1) :
    c ∈ classes ∨ c = mkGMLFeatureClass e := by
  unfold pushFeatureClass at hc
  cases hfind : findClassIdx classes e with
  | some i =>
      rw [hfind] at hc
      exact Or.inl hc
  | none =>
      rw [hfind] at hc
      rcases List.mem_append.mp hc with h | h
      · exact Or.inl h
      · exact Or.inr (List.mem_singleton.mp h)

/-- A prescan step over a geometry-less feature never changes any class's
geometry type away from `unknown`. -/
theorem prescanStep_no_geom_unknown (bGetExtents : Bool)
    (st : List GMLFeatureClass × Bool) (f : PrescanFeature)
    (hf : f.geom = none)
    (hinv : ∀ c ∈ st.1, c.geometryType = .unknown) :
    ∀ c ∈ (prescanStep bGetExtents st f).1, c.geometryType = .unknown := by
  have hpush : ∀ c ∈ (pushFeatureClass st.1 f.elementName).1,
      c.geometryType = .unknown := by
    intro c hc
    rcases pushFeatureClass_mem st.1 f.elementName c hc with h | h
    · exact hinv c h
    · rw [h]; rfl
  intro c hc
  unfold prescanStep at hc
  cases hget : (pushFeatureClass st.1 f.elementName).1.get?
      (pushFeatureClass st.1 f.elementName).2 with
  | none =>
      simp only [hget] at hc
      exact hpush c hc
  | some poClass =>
      have hpo : poClass.geometryType = .unknown :=
        hpush poClass (List.get?_mem hget)
      simp only [hget, hf] at hc
      cases bGetExtents with
      | true =>
          simp only [if_true] at hc
          rcases List.mem_or_eq_of_mem_set hc with h | h
          · exact hpush c h
          · rw [h]
            by_cases hcnt : poClass.featureCount == -1 <;> simp [hcnt, hpo]
      | false =>
          simp only [Bool.false_eq_true, if_false] at hc
          rcases List.mem_or_eq_of_mem_set hc with h | h
          · exact hpush c h
          · rw [h]
            by_cases hcnt : poClass.featureCount == -1 <;> simp [hcnt, hpo]

/-- The prescan fold over geometry-less features keeps every class's
geometry type `unknown`. -/
theorem prescanFold_no_geom (bGetExtents : Bool) (fs : List PrescanFeature)
    (hfs : ∀ f ∈ fs, f.geom = none) :
    ∀ st : List GMLFeatureClass × Bool,
      (∀ c ∈ st.1, c.geometryType = .unknown) →
      ∀ c ∈ (fs.foldl (prescanStep bGetExtents) st).1,
        c.geometryType = .unknown := by
  induction fs with
  | nil => intro st hinv; simpa using hinv
  | cons f rest ih =>
      intro st hinv
      simp only [List.foldl_cons]
      exact ih (fun g hg => hfs g (List.mem_cons_of_mem _ hg))
        (prescanStep bGetExtents st f)
        (prescanStep_no_geom_unknown bGetExtents st f
          (hfs f (List.mem_cons_self _ _)) hinv)

/-- The per-class post-loop of the prescan never touches the geometry
type. -/
theorem prescanPostClass_geometryType (invertAxis canUseGlobal : Bool)
    (globalSRSName : Option String) (isSRSLatLongOrder : Option String → Bool)
    (stripAxisWkt : Option String → Option (Option String))
    (cls : GMLFeatureClass) :
    (prescanPostClass invertAxis canUseGlobal globalSRSName isSRSLatLongOrder
      stripAxisWkt cls).geometryType = cls.geometryType := by
  unfold prescanPostClass
  set srs := (if canUseGlobal then globalSRSName else cls.srsName) with hsrs
  by_cases h1 : (invertAxis && isSRSLatLongOrder srs) = true
  · rw [if_pos h1]
    cases hstrip : stripAxisWkt srs with
    | none => rfl
    | some wkt =>
        cases wkt with
        | none =>
            cases canUseGlobal with
            | true =>
                cases hext : cls.extents with
                | none => simp [hext]
                | some q =>
                    obtain ⟨x0, x1, y0, y1⟩ := q
                    simp [hext]
            | false => rfl
        | some w =>
            cases canUseGlobal with
            | true =>
                cases hext : cls.extents with
                | none => simp [hext]
                | some q =>
                    obtain ⟨x0, x1, y0, y1⟩ := q
                    simp [hext]
            | false => rfl
  · rw [if_neg h1]

/-- Counterexample for C1: prescanning (with `get_extents`) a document
whose one class has a single feature without geometry leaves that class's
geometry type at `unknown` — not `none` — because the `unknown → none`
coercion sits inside the branch taken only when a geometry was actually
built. -/
theorem prescan_no_geometry_stays_unknown_cex :
    ((prescanForSchema true false none (fun _ => false) (fun _ => none)
        [⟨"Road", none⟩]).1.map (·.geometryType) = [.unknown]) ∧
    OGRwkbGeometryType.unknown ≠ OGRwkbGeometryType.nothing := by
  constructor
  · decide
  · decide

/-- C1 (amended): after `PrescanForSchema` with `get_extents`, a class
none of whose features produced a geometry keeps geometry type `unknown`
(its initial value); the `unknown → none` coercion fires only while
merging an actually built geometry. -/
theorem prescan_no_geometry_keeps_unknown (bGetExtents invertAxis : Bool)
    (globalSRSName : Option String) (isSRSLatLongOrder : Option String → Bool)
    (stripAxisWkt : Option String → Option (Option String))
    (features : List PrescanFeature)
    (hfs : ∀ f ∈ features, f.geom = none) :
    ∀ c ∈ (prescanForSchema bGetExtents invertAxis globalSRSName
        isSRSLatLongOrder stripAxisWkt features).1,
      c.geometryType = .unknown := by
  intro c hc
  unfold prescanForSchema at hc
  simp only [List.mem_map] at hc
  obtain ⟨c0, hc0, rfl⟩ := hc
  rw [prescanPostClass_geometryType]
  exact prescanFold_no_geom bGetExtents features hfs ([], true)
    (by intro c hmem; cases hmem) c0 hc0

/-- Witness for C1 (amended) at a one-feature document. -/
theorem prescan_no_geometry_keeps_unknown_witness :
    (∀ f ∈ [(⟨"Road", none⟩ : PrescanFeature)], f.geom = none) ∧
    ∀ c ∈ (prescanForSchema true false none (fun _ => false) (fun _ => none)
        [(⟨"Road", none⟩ : PrescanFeature)]).1,
      c.geometryType = .unknown := by
  refine ⟨by decide, ?_⟩
  exact prescan_no_geometry_keeps_unknown true false none (fun _ => false)
    (fun _ => none) [⟨"Road", none⟩] (by decide)

/-- Behaviour of the prescan post-loop on a lat/long-ordered effective SRS
when the whole `OGRSpatialReference` pipeline succeeds: the stripped WKT
is stored, and the extents are swapped exactly when the global-SRS
substitution applied. -/
theorem prescanPostClass_latlong (canUseGlobal : Bool)
    (globalSRSName : Option String) (isSRSLatLongOrder : Option String → Bool)
    (stripAxisWkt : Option String → Option (Option String))
    (cls : GMLFeatureClass) (w : String)
    (hLL : isSRSLatLongOrder
      (if canUseGlobal then globalSRSName else cls.srsName) = true)
    (hstrip : stripAxisWkt
      (if canUseGlobal then globalSRSName else cls.srsName) = some (some w)) :
    (prescanPostClass true canUseGlobal globalSRSName isSRSLatLongOrder
      stripAxisWkt cls).srsName = some w ∧
    (prescanPostClass true canUseGlobal globalSRSName isSRSLatLongOrder
      stripAxisWkt cls).extents
      = (if canUseGlobal then
          (match cls.extents with
           | some (x0, x1, y0, y1) => some (y0, y1, x0, x1)
           | none => none)
        else cls.extents) := by
  have hcond : (true && isSRSLatLongOrder
      (if canUseGlobal then globalSRSName else cls.srsName)) = true := by
    simpa using hLL
  unfold prescanPostClass
  rw [if_pos hcond, hstrip]
  cases canUseGlobal with
  | false => exact ⟨rfl, rfl⟩
  | true =>
      cases hext : cls.extents with
      | none => simp [hext]
      | some q =>
          obtain ⟨x0, x1, y0, y1⟩ := q
          simp [hext]

/-- The prescan fold over a single feature with a geometry that carries no
explicit SRS name. -/
theorem prescanFold_singleton (e : String) (g : PrescanGeom)
    (hsrs : g.srsName = none) (hne : g.isEmpty = false) :
    List.foldl (prescanStep true) ([], true) [⟨e, some g⟩]
      = ([⟨e, e, [], false, 1, mergeGeometryTypes .nothing g.geomType,
           some (g.minX, g.maxX, g.minY, g.maxY), none, false⟩], true) := by
  simp [prescanStep, pushFeatureClass, findClassIdx, mkGMLFeatureClass,
    mergeSRSName, hsrs, hne]

/-- C5: in `PrescanForSchema` under `invert_axis_order_if_lat_long`, a
class whose effective SRS is lat/long ordered (and on which the
`OGRSpatialReference` strip/export pipeline succeeds) gets the
AXIS-stripped re-exported WKT stored as its SRS, and its extents swapped
`(xmin,xmax,ymin,ymax) → (ymin,ymax,xmin,xmax)` exactly when the
global-SRS substitution applied; in particular a full prescan whose only
feature carries no per-geometry SRS, under a lat/long global SRS such as
`EPSG:4326`, yields one class with swapped extents and the stripped
WKT. -/
theorem prescan_axis_inversion (canUseGlobal : Bool)
    (globalSRSName : Option String) (isSRSLatLongOrder : Option String → Bool)
    (stripAxisWkt : Option String → Option (Option String))
    (cls : GMLFeatureClass) (w : String)
    (hLL : isSRSLatLongOrder
      (if canUseGlobal then globalSRSName else cls.srsName) = true)
    (hstrip : stripAxisWkt
      (if canUseGlobal then globalSRSName else cls.srsName) = some (some w)) :
    ((prescanPostClass true canUseGlobal globalSRSName isSRSLatLongOrder
        stripAxisWkt cls).srsName = some w ∧
      (canUseGlobal = true → ∀ x0 x1 y0 y1, cls.extents = some (x0, x1, y0, y1) →
        (prescanPostClass true canUseGlobal globalSRSName isSRSLatLongOrder
          stripAxisWkt cls).extents = some (y0, y1, x0, x1))) ∧
    (∀ (e : String) (gt : OGRwkbGeometryType) (x0 x1 y0 y1 : Rat),
      isSRSLatLongOrder globalSRSName = true →
      stripAxisWkt globalSRSName = some (some w) →
      ∃ cl, (prescanForSchema true true globalSRSName isSRSLatLongOrder
          stripAxisWkt [⟨e, some ⟨gt, false, x0, x1, y0, y1, none⟩⟩]).1 = [cl] ∧
        cl.srsName = some w ∧ cl.extents = some (y0, y1, x0, x1)) := by
  obtain ⟨hs, he⟩ := prescanPostClass_latlong canUseGlobal globalSRSName
    isSRSLatLongOrder stripAxisWkt cls w hLL hstrip
  refine ⟨⟨hs, ?_⟩, ?_⟩
  · intro hcu x0 x1 y0 y1 hext
    rw [he, hcu, hext]
    simp
  · intro e gt x0 x1 y0 y1 hLLg hstripg
    set cl0 : GMLFeatureClass :=
      ⟨e, e, [], false, 1, mergeGeometryTypes .nothing gt,
        some (x0, x1, y0, y1), none, false⟩ with hcl0
    have hLL0 : isSRSLatLongOrder
        (if true then globalSRSName else cl0.srsName) = true := by
      simpa using hLLg
    have hstrip0 : stripAxisWkt
        (if true then globalSRSName else cl0.srsName) = some (some w) := by
      simpa using hstripg
    obtain ⟨hs0, he0⟩ := prescanPostClass_latlong true globalSRSName
      isSRSLatLongOrder stripAxisWkt cl0 w hLL0 hstrip0
    refine ⟨prescanPostClass true true globalSRSName isSRSLatLongOrder
      stripAxisWkt cl0, ?_, hs0, ?_⟩
    · unfold prescanForSchema
      rw [prescanFold_singleton e ⟨gt, false, x0, x1, y0, y1, none⟩ rfl rfl]
      rfl
    · rw [he0]
      simp [hcl0]

/-- A concrete lat/long test for `GML_IsSRSLatLongOrder`. -/
def epsg4326LL : Option String → Bool := fun s => s == some "EPSG:4326"

/-- A concrete AXIS-stripping pipeline succeeding on `EPSG:4326`. -/
def epsg4326Strip : Option String → Option (Option String) := fun s =>
  if s == some "EPSG:4326" then some (some "WKT_NOAXIS") else none

/-- A concrete class with accumulated extents. -/
def roadExtCls : GMLFeatureClass :=
  { mkGMLFeatureClass "Road" with extents := some (1, 2, 3, 4) }

/-- Witness for C5 at `EPSG:4326`: stripped WKT stored, extents swapped,
and the end-to-end single-feature prescan agrees. -/
theorem prescan_axis_inversion_witness :
    (prescanPostClass true true (some "EPSG:4326") epsg4326LL epsg4326Strip
        roadExtCls).srsName = some "WKT_NOAXIS" ∧
    (prescanPostClass true true (some "EPSG:4326") epsg4326LL epsg4326Strip
        roadExtCls).extents = some (3, 4, 1, 2) ∧
    ∃ cl, (prescanForSchema true true (some "EPSG:4326") epsg4326LL
        epsg4326Strip [⟨"Road", some ⟨.point, false, 1, 2, 3, 4, none⟩⟩]).1
        = [cl] ∧
      cl.srsName = some "WKT_NOAXIS" ∧ cl.extents = some (3, 4, 1, 2) := by
  have h := prescan_axis_inversion true (some "EPSG:4326") epsg4326LL
    epsg4326Strip roadExtCls "WKT_NOAXIS" (by decide) (by decide)
  exact ⟨h.1.1, h.1.2 rfl 1 2 3 4 rfl,
    h.2 "Road" .point 1 2 3 4 (by decide) (by decide)⟩

/-- Counterexample for C8: on the Xerces (pull) backend, a `parseNext`
call whose events complete a feature and which then throws latches the
feature, sets `stop_parsing`, and returns no feature — yet the next call,
with `stop_parsing` already set, still delivers the latched feature. -/
theorem nextFeatureXerces_after_stop_cex :
    ((nextFeatureXerces (⟨true, true, false, none,
        [.exn (some 7)]⟩ : XercesReaderState Nat)).1 = none) ∧
    ((nextFeatureXerces (⟨true, true, false, none,
        [.exn (some 7)]⟩ : XercesReaderState Nat)).2.stopParsing = true) ∧
    ((nextFeatureXerces (nextFeatureXerces (⟨true, true, false, none,
        [.exn (some 7)]⟩ : XercesReaderState Nat)).2).1 = some 7) := by
  refine ⟨?_, ?_, ?_⟩ <;> decide

/-- C8 (amended): once `stop_parsing` is set, every subsequent
`NextFeatureExpat` call returns no feature (the push backend checks the
flag before its pending queue) and keeps the flag set; on the Xerces
backend with reading started, a call after the flag is set delivers the
single feature already latched as completed when the stop occurred, if
any, and after the latch slot is empty every call returns no feature with
the flag still set. -/
theorem nextFeature_after_stop {α : Type} (es : ExpatReaderState α)
    (xs xs2 : XercesReaderState α) (f : α)
    (hes : es.stopParsing = true)
    (hx1 : xs.stopParsing = true) (hx2 : xs.completeFeature = none)
    (hx3 : xs.readStarted = true)
    (hy1 : xs2.stopParsing = true) (hy2 : xs2.completeFeature = some f)
    (hy3 : xs2.readStarted = true) :
    ((nextFeatureExpat es).1 = none ∧
      (nextFeatureExpat es).2.stopParsing = true) ∧
    ((nextFeatureXerces xs).1 = none ∧
      (nextFeatureXerces xs).2.stopParsing = true ∧
      (nextFeatureXerces xs).2.completeFeature = none ∧
      (nextFeatureXerces xs).2.readStarted = true) ∧
    ((nextFeatureXerces xs2).1 = some f ∧
      (nextFeatureXerces xs2).2.stopParsing = true ∧
      (nextFeatureXerces xs2).2.completeFeature = none ∧
      (nextFeatureXerces xs2).2.readStarted = true) := by
  refine ⟨?_, ?_, ?_⟩
  · cases hrs : es.readStarted with
    | true => simp [nextFeatureExpat, hes, hrs]
    | false => simp [nextFeatureExpat, hes, hrs]
  · simp [nextFeatureXerces, nextFeatureXercesRun, hx1, hx2, hx3]
  · simp [nextFeatureXerces, nextFeatureXercesRun, hy1, hy2, hy3]

/-- Witness for C8 (amended) at concrete stopped states of both
backends. -/
theorem nextFeature_after_stop_witness :
    (((nextFeatureExpat (⟨true, true, true, [5], []⟩ :
        ExpatReaderState Nat)).1 = none ∧
      (nextFeatureExpat (⟨true, true, true, [5], []⟩ :
        ExpatReaderState Nat)).2.stopParsing = true) ∧
    ((nextFeatureXerces (⟨true, true, true, none, []⟩ :
        XercesReaderState Nat)).1 = none ∧
      (nextFeatureXerces (⟨true, true, true, none, []⟩ :
        XercesReaderState Nat)).2.stopParsing = true ∧
      (nextFeatureXerces (⟨true, true, true, none, []⟩ :
        XercesReaderState Nat)).2.completeFeature = none ∧
      (nextFeatureXerces (⟨true, true, true, none, []⟩ :
        XercesReaderState Nat)).2.readStarted = true) ∧
    ((nextFeatureXerces (⟨true, true, true, some 7, []⟩ :
        XercesReaderState Nat)).1 = some 7 ∧
      (nextFeatureXerces (⟨true, true, true, some 7, []⟩ :
        XercesReaderState Nat)).2.stopParsing = true ∧
      (nextFeatureXerces (⟨true, true, true, some 7, []⟩ :
        XercesReaderState Nat)).2.completeFeature = none ∧
      (nextFeatureXerces (⟨true, true, true, some 7, []⟩ :
        XercesReaderState Nat)).2.readStarted = true)) := by
  exact nextFeature_after_stop ⟨true, true, true, [5], []⟩
    ⟨true, true, true, none, []⟩ ⟨true, true, true, some 7, []⟩ 7
    rfl rfl rfl rfl rfl rfl rfl
